import Mathlib

/-!
Verification of the Folio offline-first sync core.

This file shallowly embeds the parts of the repository that the verified
claims are about:

* `apps/native/lib/sync/pending-operations.ts` — the Pending Operation Log
  (`pendingOperations.add` and the merge table).
* `apps/native/lib/sync/sync-service.ts` — the sync orchestrator
  (`SyncService.sync`, the upload/download phases, `processServerEntry`,
  `handleEntryConflict`, `createLocalEntry`, `uploadAllLocalData`).
* The local repositories (`EntriesRepository`, `TagsRepository`,
  `SourcesRepository`, `ReviewRepository`) backing the orchestrator.
* The SM-2 scheduler `calculateNextState` of the local review repository.

Modelling conventions: JavaScript `Date` values are milliseconds since the
epoch (`Nat`); asynchronous storage (SecureStore, SQLite via drizzle) is
explicit state passing over Lean lists playing the role of the stored
collections / tables; `Math.random`-based id generators are modelled by
passing the freshly generated id as an argument; IEEE doubles in the SM-2
scheduler are modelled by rational numbers (every constant involved — 2.5,
0.2, 1.3, 1.2, 0.15, 0.1, 3.0 — and every intermediate value reached in the
verified scenarios is exactly representable, and `Math.round` is modelled by
`⌊x + 1/2⌋`, its round-half-up semantics on positive values); `JSON.stringify`
snapshots stored inside a `SyncConflict` are modelled by carrying the record
itself in a tagged snapshot type.
-/

namespace Folio

/-- The `SyncStatus` of `apps/native/lib/db/utils.ts`: `'synced' | 'pending' | 'conflict'`. -/
inductive SyncStatus where
  | synced
  | pending
  | conflict
deriving DecidableEq, Repr

/-- The `OperationType` of the sync layer: `'create' | 'update' | 'delete'`. -/
inductive OperationType where
  | create
  | update
  | delete
deriving DecidableEq, Repr

/-- The `SyncEntityType`: the entity families moved through the pending log. -/
inductive SyncEntityType where
  | entry
  | tag
  | source
  | reviewState
  | reviewEvent
deriving DecidableEq, Repr

/-- The `ConflictStrategy`: `'local' | 'remote' | 'manual'`. -/
inductive ConflictStrategy where
  | localWins
  | remoteWins
  | manual
deriving DecidableEq, Repr

/-- The `SyncState`: `'idle' | 'syncing' | 'error' | 'conflict'`. -/
inductive SyncState where
  | idle
  | syncing
  | error
  | conflict
deriving DecidableEq, Repr

/-- The `PendingOperation` of `apps/native/lib/sync/types.ts`, as stored by the
Pending Operation Log.  `createdAt` is a millisecond timestamp. -/
structure PendingOperation where
  id : String
  entityType : SyncEntityType
  entityId : String
  operation : OperationType
  payload : String
  createdAt : Nat
  retryCount : Nat
  lastError : Option String := none
deriving DecidableEq, Repr

/-- The `(entityType, entityId)` key test used by
`pendingOperations.add`'s `findIndex` callback. -/
def opKeyMatches (entityType : SyncEntityType) (entityId : String)
    (op : PendingOperation) : Bool :=
  op.entityType == entityType && op.entityId == entityId

/-- The `pendingOperations.add` of `apps/native/lib/sync/pending-operations.ts`.
The stored collection is the list loaded by `loadOperations`; the freshly
generated id (`generateId()`) and the current time (`new Date()`) are passed
in as `freshId` and `nowMs`.  Returns the updated collection (the
`saveOperations` argument, or the collection after `splice` in the
create→delete branch). -/
def pendingAdd (operations : List PendingOperation)
    (entityType : SyncEntityType) (entityId : String)
    (operation : OperationType) (payload : String)
    (freshId : String) (nowMs : Nat) : List PendingOperation :=
  let newOp : PendingOperation :=
    { id := freshId, entityType := entityType, entityId := entityId,
      operation := operation, payload := payload, createdAt := nowMs,
      retryCount := 0 }
  let existingIndex := operations.findIdx (opKeyMatches entityType entityId)
  if h : existingIndex < operations.length then
    let existing := operations[existingIndex]
    if existing.operation == .create && operation == .update then
      -- Keep as create with updated payload
      operations.set existingIndex
        { newOp with operation := .create, id := existing.id,
                     createdAt := existing.createdAt }
    else if existing.operation == .create && operation == .delete then
      -- Remove the operation entirely (never synced, now deleted)
      operations.eraseIdx existingIndex
    else if existing.operation == .update && operation == .delete then
      -- Replace update with delete
      operations.set existingIndex { newOp with operation := .delete }
    else
      -- Replace existing operation
      operations.set existingIndex newOp
  else
    operations ++ [newOp]

/-- The `pendingOperations.remove`. -/
def pendingRemove (operations : List PendingOperation) (id : String) :
    List PendingOperation :=
  operations.filter (fun op => op.id != id)

/-- The `pendingOperations.markFailed`. -/
def pendingMarkFailed (operations : List PendingOperation) (id : String)
    (error : String) : List PendingOperation :=
  let index := operations.findIdx (fun op => op.id == id)
  if h : index < operations.length then
    operations.set index
      { operations[index] with
          retryCount := operations[index].retryCount + 1,
          lastError := some error }
  else
    operations

/-- One call to `pendingOperations.add`, with the generated id and timestamp
made explicit. -/
structure AddCall where
  entityType : SyncEntityType
  entityId : String
  operation : OperationType
  payload : String
  freshId : String
  nowMs : Nat
deriving Repr

/-- Replay a sequence of `add` calls against an initially empty log. -/
def runAdds (calls : List AddCall) : List PendingOperation :=
  calls.foldl
    (fun ops c => pendingAdd ops c.entityType c.entityId c.operation
      c.payload c.freshId c.nowMs) []

/-- The log invariant: no two stored operations share an
`(entityType, entityId)` key. -/
def atMostOnePerKey (operations : List PendingOperation) : Prop :=
  operations.Pairwise
    (fun a b => ¬(a.entityType = b.entityType ∧ a.entityId = b.entityId))

/-- Unfolding of the key test. -/
theorem opKeyMatches_iff (entityType : SyncEntityType) (entityId : String)
    (op : PendingOperation) :
    opKeyMatches entityType entityId op = true ↔
      op.entityType = entityType ∧ op.entityId = entityId := by
  simp [opKeyMatches]

/-- Replacing an element by one with the same `(entityType, entityId)` key
preserves key-uniqueness. -/
theorem atMostOnePerKey_set {l : List PendingOperation} {i : Nat}
    (hi : i < l.length) {x : PendingOperation}
    (hkey : x.entityType = l[i].entityType ∧ x.entityId = l[i].entityId)
    (h : atMostOnePerKey l) : atMostOnePerKey (l.set i x) := by
  rw [atMostOnePerKey, List.pairwise_iff_getElem] at h ⊢
  intro j k hj hk hjk
  simp only [List.length_set] at hj hk
  rw [List.getElem_set, List.getElem_set]
  by_cases hji : i = j
  · subst hji
    by_cases hki : i = k
    · omega
    · simp only [if_pos rfl, if_neg hki]
      intro hc
      exact h i k hj hk hjk ⟨hkey.1.symm.trans hc.1, hkey.2.symm.trans hc.2⟩
  · by_cases hki : i = k
    · subst hki
      simp only [if_neg hji, if_pos rfl]
      intro hc
      exact h j i hj hk hjk ⟨hc.1.trans hkey.1, hc.2.trans hkey.2⟩
    · simp only [if_neg hji, if_neg hki]
      exact h j k hj hk hjk

/-- The `pendingOperations.add` preserves the at-most-one-per-key invariant. -/
theorem pendingAdd_preserves_atMostOnePerKey
    (operations : List PendingOperation)
    (entityType : SyncEntityType) (entityId : String)
    (operation : OperationType) (payload : String)
    (freshId : String) (nowMs : Nat)
    (h : atMostOnePerKey operations) :
    atMostOnePerKey
      (pendingAdd operations entityType entityId operation payload freshId nowMs) := by
  unfold pendingAdd
  dsimp only
  split
  case isTrue hlt =>
    have hmatch : opKeyMatches entityType entityId
        operations[operations.findIdx (opKeyMatches entityType entityId)] = true :=
      List.findIdx_getElem
    have hkeys := (opKeyMatches_iff _ _ _).mp hmatch
    split
    · exact atMostOnePerKey_set hlt ⟨hkeys.1.symm, hkeys.2.symm⟩ h
    · split
      · exact List.Pairwise.sublist (List.eraseIdx_sublist _ _) h
      · split
        · exact atMostOnePerKey_set hlt ⟨hkeys.1.symm, hkeys.2.symm⟩ h
        · exact atMostOnePerKey_set hlt ⟨hkeys.1.symm, hkeys.2.symm⟩ h
  case isFalse hge =>
    have hlen : operations.findIdx (opKeyMatches entityType entityId) =
        operations.length := by
      have := @List.findIdx_le_length _ (opKeyMatches entityType entityId)
        operations
      omega
    have hnone : ∀ x ∈ operations,
        opKeyMatches entityType entityId x = false :=
      List.findIdx_eq_length.mp hlen
    rw [atMostOnePerKey, List.pairwise_append]
    refine ⟨h, List.pairwise_singleton _ _, ?_⟩
    intro a ha b hb
    simp only [List.mem_singleton] at hb
    subst hb
    intro hc
    have := hnone a ha
    rw [← Bool.not_eq_true, opKeyMatches_iff] at this
    exact this ⟨hc.1, hc.2⟩

/-- In a key-unique log, erasing the operation that matches a key leaves no
operation matching that key. -/
theorem eraseIdx_no_key_left {l : List PendingOperation} {i : Nat}
    (hi : i < l.length) {entityType : SyncEntityType} {entityId : String}
    (hmatch : opKeyMatches entityType entityId l[i] = true)
    (hinv : atMostOnePerKey l) :
    ∀ op ∈ l.eraseIdx i, opKeyMatches entityType entityId op = false := by
  intro op hop
  rw [atMostOnePerKey, List.pairwise_iff_getElem] at hinv
  obtain ⟨j, hj, rfl⟩ := List.mem_iff_getElem.mp hop
  have hkeys := (opKeyMatches_iff _ _ _).mp hmatch
  have hjlen : j < l.length - 1 := by
    have := List.length_eraseIdx l i
    rw [if_pos hi] at this
    omega
  rw [List.getElem_eraseIdx]
  split
  case isTrue hlt =>
    have hne := hinv j i (by omega) hi hlt
    rw [← Bool.not_eq_true, opKeyMatches_iff]
    intro hc
    exact hne ⟨hc.1.trans hkeys.1.symm, hc.2.trans hkeys.2.symm⟩
  case isFalse hge =>
    have hne := hinv i (j + 1) hi (by omega) (by omega)
    rw [← Bool.not_eq_true, opKeyMatches_iff]
    intro hc
    exact hne ⟨hkeys.1.trans hc.1.symm, hkeys.2.trans hc.2.symm⟩

/-- C1 — the merge table of `pendingOperations.add` for an existing operation
on the same `(entityType, entityId)` key: create + update stays a create
keeping the original `id`/`createdAt` with the payload replaced; create +
delete removes the operation entirely, leaving zero entries for the key;
update + delete becomes a delete; and an incoming operation of the same kind
as the existing one replaces it (last write wins). -/
theorem pendingAdd_merge_table
    (operations : List PendingOperation)
    (entityType : SyncEntityType) (entityId : String)
    (payload freshId : String) (nowMs : Nat)
    (i : Nat) (hi : i < operations.length)
    (hfound : operations.findIdx (opKeyMatches entityType entityId) = i)
    (hinv : atMostOnePerKey operations) :
    (operations[i].operation = .create →
      pendingAdd operations entityType entityId .update payload freshId nowMs =
        operations.set i
          { id := operations[i].id, entityType := entityType,
            entityId := entityId, operation := .create, payload := payload,
            createdAt := operations[i].createdAt, retryCount := 0 }) ∧
    (operations[i].operation = .create →
      pendingAdd operations entityType entityId .delete payload freshId nowMs =
        operations.eraseIdx i ∧
      ∀ op ∈ operations.eraseIdx i,
        opKeyMatches entityType entityId op = false) ∧
    (operations[i].operation = .update →
      pendingAdd operations entityType entityId .delete payload freshId nowMs =
        operations.set i
          { id := freshId, entityType := entityType, entityId := entityId,
            operation := .delete, payload := payload, createdAt := nowMs,
            retryCount := 0 }) ∧
    (∀ k, operations[i].operation = k →
      pendingAdd operations entityType entityId k payload freshId nowMs =
        operations.set i
          { id := freshId, entityType := entityType, entityId := entityId,
            operation := k, payload := payload, createdAt := nowMs,
            retryCount := 0 }) := by
  have hmatch : opKeyMatches entityType entityId operations[i] = true := by
    subst hfound
    exact List.findIdx_getElem
  refine ⟨?_, ?_, ?_, ?_⟩
  · intro hop
    simp only [pendingAdd, hfound, dif_pos hi, hop]
    rfl
  · intro hop
    refine ⟨?_, eraseIdx_no_key_left hi hmatch hinv⟩
    simp only [pendingAdd, hfound, dif_pos hi, hop]
    rfl
  · intro hop
    simp only [pendingAdd, hfound, dif_pos hi, hop]
    rfl
  · intro k hop
    cases k <;> simp only [pendingAdd, hfound, dif_pos hi, hop] <;> rfl

/-- C2 — after any sequence of `add()` calls starting from the empty log,
the log holds at most one operation per `(entityType, entityId)`. -/
theorem runAdds_atMostOnePerKey (calls : List AddCall) :
    atMostOnePerKey (runAdds calls) := by
  suffices h : ∀ ops, atMostOnePerKey ops →
      atMostOnePerKey (calls.foldl
        (fun ops c => pendingAdd ops c.entityType c.entityId c.operation
          c.payload c.freshId c.nowMs) ops) by
    exact h [] List.Pairwise.nil
  induction calls with
  | nil => intro ops hops; exact hops
  | cons c rest ih =>
    intro ops hops
    exact ih _ (pendingAdd_preserves_atMostOnePerKey _ _ _ _ _ _ _ hops)

/-- A concrete pending `create` operation used to instantiate the merge-table
theorem. -/
def sampleCreateOp : PendingOperation :=
  { id := "op_a", entityType := .entry, entityId := "e1",
    operation := .create, payload := "p0", createdAt := 1, retryCount := 0 }

/-- Witness for C1: on a log holding one `create` for `(entry, e1)`, an
incoming `delete` empties the log and an incoming `update` keeps the create
with the original id and creation time and the new payload. -/
theorem pendingAdd_merge_table_witness :
    pendingAdd [sampleCreateOp] .entry "e1" .delete "p1" "op_b" 5 = [] ∧
    pendingAdd [sampleCreateOp] .entry "e1" .update "p1" "op_b" 5 =
      [{ id := "op_a", entityType := .entry, entityId := "e1",
         operation := .create, payload := "p1", createdAt := 1,
         retryCount := 0 }] := by
  have h := pendingAdd_merge_table [sampleCreateOp] .entry "e1" "p1" "op_b" 5 0
    (by decide) (by decide) (by simp [atMostOnePerKey])
  exact ⟨by simpa using (h.2.1 (by decide)).1, by simpa using h.1 (by decide)⟩

/-! ## SM-2 review scheduling (`calculateNextState` of the local review
repository, `apps/native/lib/repositories/tags-repository.ts`). -/

/-- The `ReviewRating`: `'again' | 'hard' | 'good' | 'easy'`. -/
inductive ReviewRating where
  | again
  | hard
  | good
  | easy
deriving DecidableEq, Repr

/-- The scheduling fields of `entry_review_state` read and written by
`calculateNextState`.  `ease` is an IEEE double in the source, modelled as a
rational (see the file header). -/
structure ReviewStateSnapshot where
  intervalDays : Int
  ease : ℚ
  reps : Int
  lapses : Int
deriving DecidableEq, Repr

/-- The `SM2_DEFAULTS` of the review repository. -/
def SM2_initialEase : ℚ := 2.5
def SM2_minEase : ℚ := 1.3
def SM2_maxEase : ℚ := 3.0
def SM2_againInterval : Int := 1
def SM2_hardMultiplier : ℚ := 1.2
def SM2_easyMultiplier : ℚ := 1.3
def SM2_againEaseDelta : ℚ := -0.2
def SM2_hardEaseDelta : ℚ := -0.15
def SM2_easyEaseDelta : ℚ := 0.1

/-- JavaScript `Math.round`: round half towards positive infinity. -/
def jsRound (x : ℚ) : Int := ⌊x + 1 / 2⌋

/-- The `calculateNextState(currentState, rating)` — the SM-2 scheduler.  `none`
models the `null` current state of a first-ever review. -/
def calculateNextState (currentState : Option ReviewStateSnapshot)
    (rating : ReviewRating) : ReviewStateSnapshot :=
  let baseInterval : Int := (currentState.map (·.intervalDays)).getD 0
  let ease0 : ℚ := (currentState.map (·.ease)).getD SM2_initialEase
  let reps0 : Int := (currentState.map (·.reps)).getD 0
  let lapses0 : Int := (currentState.map (·.lapses)).getD 0
  match rating with
  | .again =>
      { intervalDays := SM2_againInterval,
        ease := max SM2_minEase (ease0 + SM2_againEaseDelta),
        reps := 0, lapses := lapses0 + 1 }
  | .hard =>
      { intervalDays := max 1 (jsRound ((baseInterval : ℚ) * SM2_hardMultiplier)),
        ease := max SM2_minEase (ease0 + SM2_hardEaseDelta),
        reps := reps0 + 1, lapses := lapses0 }
  | .good =>
      { intervalDays :=
          if baseInterval = 0 then 1
          else max 1 (jsRound ((baseInterval : ℚ) * ease0)),
        ease := ease0, reps := reps0 + 1, lapses := lapses0 }
  | .easy =>
      { intervalDays :=
          if baseInterval = 0 then 2
          else max 1 (jsRound ((baseInterval : ℚ) * ease0 * SM2_easyMultiplier)),
        ease := min SM2_maxEase (ease0 + SM2_easyEaseDelta),
        reps := reps0 + 1, lapses := lapses0 }

/-- The due-date computation of `ReviewRepository.markReviewed`:
`dueAt.setDate(dueAt.getDate() + nextState.intervalDays)`, with time counted
in calendar days from the review instant. -/
def markReviewedDueAt (nowDays : Int) (next : ReviewStateSnapshot) : Int :=
  nowDays + next.intervalDays

/-- C4 — SM-2 determinism and the three pinned scenarios: the scheduler's
interval and ease outputs depend only on `(currentEase, currentIntervalDays,
rating)`; `(ease=2.5, interval=6, good)` yields interval 15 with ease
unchanged; `(ease=2.5, interval=0, again)` yields interval 1, ease 2.3, a
lapse increment and a reps reset; `(ease=1.35, interval=10, again)` floors
the ease at 1.3; and the next-due instant is the review instant plus the
computed interval in days. -/
theorem calculateNextState_sm2_spec :
    (∀ s₁ s₂ : ReviewStateSnapshot, ∀ rating : ReviewRating,
      s₁.ease = s₂.ease → s₁.intervalDays = s₂.intervalDays →
      (calculateNextState (some s₁) rating).intervalDays =
          (calculateNextState (some s₂) rating).intervalDays ∧
        (calculateNextState (some s₁) rating).ease =
          (calculateNextState (some s₂) rating).ease) ∧
    (∀ reps lapses : Int,
      calculateNextState (some ⟨6, 2.5, reps, lapses⟩) .good =
        ⟨15, 2.5, reps + 1, lapses⟩) ∧
    (∀ reps lapses : Int,
      calculateNextState (some ⟨0, 2.5, reps, lapses⟩) .again =
        ⟨1, 2.3, 0, lapses + 1⟩) ∧
    (∀ reps lapses : Int,
      (calculateNextState (some ⟨10, 1.35, reps, lapses⟩) .again).ease = 1.3) ∧
    (∀ (nowDays : Int) (st : Option ReviewStateSnapshot) (rating : ReviewRating),
      markReviewedDueAt nowDays (calculateNextState st rating) =
        nowDays + (calculateNextState st rating).intervalDays) := by
  refine ⟨?_, ?_, ?_, ?_, ?_⟩
  · intro s₁ s₂ rating h1 h2
    cases rating <;> simp [calculateNextState, h1, h2]
  · intro reps lapses
    simp only [calculateNextState, jsRound]
    norm_num
  · intro reps lapses
    simp only [calculateNextState, SM2_againInterval, SM2_minEase,
      SM2_againEaseDelta]
    norm_num
  · intro reps lapses
    simp only [calculateNextState, SM2_minEase, SM2_againEaseDelta]
    norm_num
  · intro nowDays st rating
    rfl

/-- Witness for C4: the pinned scenarios at concrete `reps`/`lapses` values. -/
theorem calculateNextState_sm2_spec_witness :
    calculateNextState (some ⟨6, 2.5, 3, 1⟩) .good = ⟨15, 2.5, 4, 1⟩ ∧
    calculateNextState (some ⟨0, 2.5, 3, 1⟩) .again = ⟨1, 2.3, 0, 2⟩ ∧
    (calculateNextState (some ⟨10, 1.35, 3, 1⟩) .again).ease = 1.3 ∧
    markReviewedDueAt 100 (calculateNextState (some ⟨6, 2.5, 3, 1⟩) .good) =
      100 + 15 := by
  refine ⟨calculateNextState_sm2_spec.2.1 3 1, calculateNextState_sm2_spec.2.2.1 3 1,
    calculateNextState_sm2_spec.2.2.2.1 3 1, ?_⟩
  rw [calculateNextState_sm2_spec.2.2.2.2 100 (some ⟨6, 2.5, 3, 1⟩) .good,
    calculateNextState_sm2_spec.2.1 3 1]

/-! ## Local entries repository (`EntriesRepository`).  The SQLite `entries`
table is modelled as a list of rows in insertion order; `ORDER BY` clauses
are modelled with a stable merge sort. -/

/-- A row of the local `entries` table. -/
structure Entry where
  id : String
  userId : String
  title : String
  contentJson : Option String := none
  contentText : Option String := none
  isInbox : Bool := true
  isStarred : Bool := false
  isPinned : Bool := false
  createdAt : Nat
  updatedAt : Nat
  deletedAt : Option Nat := none
  version : String
  syncStatus : SyncStatus
  lastSyncedAt : Option Nat := none
deriving DecidableEq, Repr

/-- The `EntriesFilter`: `'all' | 'inbox' | 'starred' | 'library'`. -/
inductive EntriesFilter where
  | all
  | inbox
  | starred
  | library
deriving DecidableEq, Repr

/-- The `ListEntriesOptions` (the unused `tagId` option is omitted; the
repository never reads it). -/
structure ListEntriesOptions where
  userId : String
  filter : EntriesFilter := .all
  search : Option String := none
  limit : Nat := 50
  cursor : Option Nat := none
deriving Repr

/-- The `PaginatedResult`. -/
structure PaginatedResult (α : Type) where
  items : List α
  total : Nat
  hasMore : Bool
  cursor : Option Nat := none
deriving Repr

/-- The `CreateEntryInput`. -/
structure CreateEntryInput where
  userId : String
  title : String
  contentJson : Option String := none
  contentText : Option String := none
  isInbox : Option Bool := none
  isStarred : Option Bool := none
  isPinned : Option Bool := none
deriving Repr

/-- The `UpdateEntryInput`; a `none` field models an absent property of the
patch object. -/
structure UpdateEntryInput where
  title : Option String := none
  contentJson : Option String := none
  contentText : Option String := none
  isInbox : Option Bool := none
  isStarred : Option Bool := none
  isPinned : Option Bool := none
  version : Option String := none
deriving Repr

/-- JavaScript `Number.parseInt(s, 10)`: skip leading whitespace, read an
optional sign and then the longest digit prefix; `none` models `NaN`. -/
def jsParseInt (s : String) : Option Int :=
  let cs := s.toList.dropWhile Char.isWhitespace
  let signAndRest : Bool × List Char :=
    match cs with
    | '-' :: r => (true, r)
    | '+' :: r => (false, r)
    | r => (false, r)
  let ds := signAndRest.2.takeWhile Char.isDigit
  if ds.isEmpty then none
  else
    let n : Nat := ds.foldl (fun acc c => acc * 10 + (c.toNat - '0'.toNat)) 0
    some (if signAndRest.1 then -(n : Int) else (n : Int))

/-- The `String(Number.parseInt(existing.version, 10) + 1)` — the version bump of
`EntriesRepository.update`; `"NaN"` is what `String()` renders when the parse
fails. -/
def jsIncrementVersion (s : String) : String :=
  match jsParseInt s with
  | some n => toString (n + 1)
  | none => "NaN"

/-- The `EntriesRepository.findById`: first row with the id that is not
soft-deleted (`isNull(entries.deletedAt)`). -/
def entriesFindById (store : List Entry) (id : String) : Option Entry :=
  store.find? (fun e => e.id == id && e.deletedAt == none)

/-- Containment test on character lists: does `sub` occur contiguously? -/
def charsInclude (sub : List Char) : List Char → Bool
  | [] => sub.isEmpty
  | c :: rest => sub.isPrefixOf (c :: rest) || charsInclude sub rest

/-- SQL `LIKE '%pattern%'` on a nullable column (a `NULL` column never
matches).  ASCII case-insensitivity of SQLite `LIKE` is not modelled; the
verified claims do not involve the search option. -/
def likeContains (pattern : String) (value : Option String) : Bool :=
  match value with
  | none => false
  | some s => charsInclude pattern.toList s.toList

/-- The `WHERE` conditions of `EntriesRepository.list`. -/
def entriesListCond (o : ListEntriesOptions) (e : Entry) : Bool :=
  e.userId == o.userId && e.deletedAt == none &&
  (match o.filter with
   | .all => true
   | .inbox => e.isInbox
   | .starred => e.isStarred
   | .library => !e.isInbox) &&
  (match o.search with
   | none => true
   | some s => likeContains s (some e.title) || likeContains s e.contentText) &&
  (match o.cursor with
   | none => true
   | some c => decide (e.updatedAt < c))

/-- The `EntriesRepository.list`: filter, order by `updatedAt` descending, fetch
`limit + 1` rows, pop the extra row when present, and derive the next cursor
from the last returned row. -/
def entriesList (store : List Entry) (o : ListEntriesOptions) :
    PaginatedResult Entry :=
  let items := ((store.filter (entriesListCond o)).mergeSort
      (fun a b => b.updatedAt ≤ a.updatedAt)).take (o.limit + 1)
  let hasMore := decide (o.limit < items.length)
  let items := if hasMore then items.dropLast else items
  { items := items, total := items.length, hasMore := hasMore,
    cursor := (items.getLast?).map (·.updatedAt) }

/-- The `EntriesRepository.create`: insert a row with a generator-assigned local
id, both timestamps at `now`, `version = '1'` and `syncStatus = 'pending'`,
then re-read it via `findById`. -/
def entriesCreate (store : List Entry) (data : CreateEntryInput)
    (freshId : String) (nowMs : Nat) : List Entry × Option Entry :=
  let newEntry : Entry :=
    { id := freshId, userId := data.userId, title := data.title,
      contentJson := data.contentJson, contentText := data.contentText,
      isInbox := data.isInbox.getD true, isStarred := data.isStarred.getD false,
      isPinned := data.isPinned.getD false, createdAt := nowMs,
      updatedAt := nowMs, version := "1", syncStatus := .pending }
  let store' := store ++ [newEntry]
  (store', entriesFindById store' freshId)

/-- The row transformation of `EntriesRepository.update`'s `SET` clause.
`newVersion` is the version value put into `updateData`. -/
def applyEntryPatch (data : UpdateEntryInput) (newVersion : String)
    (nowMs : Nat) (e : Entry) : Entry :=
  { e with
      title := data.title.getD e.title,
      contentJson := match data.contentJson with
                     | some v => some v
                     | none => e.contentJson,
      contentText := match data.contentText with
                     | some v => some v
                     | none => e.contentText,
      isInbox := data.isInbox.getD e.isInbox,
      isStarred := data.isStarred.getD e.isStarred,
      isPinned := data.isPinned.getD e.isPinned,
      updatedAt := nowMs,
      syncStatus := .pending,
      version := newVersion }

/-- The `EntriesRepository.update`: `findById` (absent or soft-deleted ⇒ `null`,
nothing written), `SET` with `updatedAt = now`, `syncStatus = 'pending'` and
the version bumped unless the patch carries a truthy (non-empty) `version`,
then a re-read. -/
def entriesUpdate (store : List Entry) (id : String) (data : UpdateEntryInput)
    (nowMs : Nat) : List Entry × Option Entry :=
  match entriesFindById store id with
  | none => (store, none)
  | some existing =>
      -- `if (!data.version)`: both an absent and an empty-string version
      -- are falsy in JavaScript and trigger the increment.
      let newVersion :=
        if data.version.getD "" == "" then jsIncrementVersion existing.version
        else data.version.getD existing.version
      let store' := store.map (fun e =>
        if e.id == id then applyEntryPatch data newVersion nowMs e else e)
      (store', entriesFindById store' id)

/-- The `EntriesRepository.delete` (the soft delete): `SET deletedAt = now,
syncStatus = 'pending' WHERE id = ?`; the returned flag is
`result.changes > 0`, i.e. whether any row matched the `WHERE` clause. -/
def entriesSoftDelete (store : List Entry) (id : String) (nowMs : Nat) :
    List Entry × Bool :=
  let store' := store.map (fun e =>
    if e.id == id then { e with deletedAt := some nowMs, syncStatus := .pending }
    else e)
  (store', decide (0 < (store.filter (fun e => e.id == id)).length))

/-- The `EntriesRepository.markSynced`: `SET syncStatus = 'synced',
lastSyncedAt = now` (and re-key to a differing server-assigned id when one is
supplied) `WHERE id = ?`. -/
def entriesMarkSynced (store : List Entry) (id : String)
    (serverId : Option String) (nowMs : Nat) : List Entry :=
  store.map (fun e =>
    if e.id == id then
      { e with
          syncStatus := .synced, lastSyncedAt := some nowMs,
          id := match serverId with
                | some sid => if sid != id then sid else e.id
                | none => e.id }
    else e)

/-- The `EntriesRepository.getPendingSync`. -/
def entriesGetPendingSync (store : List Entry) (userId : String) : List Entry :=
  store.filter (fun e => e.userId == userId && e.syncStatus == .pending)

/-- A concrete, previously synced local entry. -/
def sampleEntry : Entry :=
  { id := "e1", userId := "u1", title := "t", createdAt := 1, updatedAt := 1,
    version := "1", syncStatus := .synced }

/-- The same entry already soft-deleted. -/
def sampleDeletedEntry : Entry :=
  { sampleEntry with deletedAt := some 1 }

/-- After `softDelete(id)`, every row carrying that id is soft-deleted. -/
theorem softDelete_rows_deleted (store : List Entry) (id : String) (nowMs : Nat) :
    ∀ e ∈ (entriesSoftDelete store id nowMs).1, e.id = id →
      e.deletedAt = some nowMs ∧ e.syncStatus = .pending := by
  intro e he hid
  simp only [entriesSoftDelete, List.mem_map] at he
  obtain ⟨r, _, rfl⟩ := he
  by_cases h : (r.id == id) = true
  · simp [h]
  · rw [if_neg h] at hid ⊢
    exact absurd (by simpa using hid) (by simpa using h)

/-- C7 counterexample — the claim asserts `findById(id)` still returns a
soft-deleted record; in the code `findById` filters on
`isNull(entries.deletedAt)` and returns `null` instead. -/
theorem findById_after_softDelete_cex :
    entriesFindById (entriesSoftDelete [sampleEntry] "e1" 5).1 "e1" = none := by
  decide

/-- C7 (amended) — after `softDelete(id)`, `list()` without the deleted-only
filter never returns a record with that id, and `findById(id)` returns `null`
as well: soft-deleted rows are invisible both to `list` and to `findById`. -/
theorem softDelete_excluded_from_reads (store : List Entry) (id : String)
    (nowMs : Nat) :
    (∀ o : ListEntriesOptions,
      ∀ e ∈ (entriesList (entriesSoftDelete store id nowMs).1 o).items,
        e.id ≠ id) ∧
    entriesFindById (entriesSoftDelete store id nowMs).1 id = none := by
  constructor
  · intro o e he hid
    have hfilter : e ∈ ((entriesSoftDelete store id nowMs).1).filter
        (entriesListCond o) := by
      have hsub : e ∈ (((entriesSoftDelete store id nowMs).1.filter
          (entriesListCond o)).mergeSort (fun a b => b.updatedAt ≤ a.updatedAt)).take
            (o.limit + 1) := by
        simp only [entriesList] at he
        split at he
        · exact List.dropLast_subset _ he
        · exact he
      exact List.mem_mergeSort.mp (List.take_subset _ _ hsub)
    have hcond := (List.mem_filter.mp hfilter).2
    have hmem := (List.mem_filter.mp hfilter).1
    have hdel := (softDelete_rows_deleted store id nowMs e hmem hid).1
    simp only [entriesListCond, Bool.and_eq_true, beq_iff_eq] at hcond
    rw [hdel] at hcond
    simp at hcond
  · rw [entriesFindById, List.find?_eq_none]
    intro e he
    simp only [Bool.and_eq_true, beq_iff_eq, not_and]
    intro hid
    have hdel := (softDelete_rows_deleted store id nowMs e he hid).1
    rw [hdel]
    simp

/-- Witness for the amended C7 at a concrete store. -/
theorem softDelete_excluded_from_reads_witness :
    (entriesList (entriesSoftDelete [sampleEntry] "e1" 5).1
        { userId := "u1" }).items = [] ∧
    entriesFindById (entriesSoftDelete [sampleEntry] "e1" 5).1 "e1" = none :=
  ⟨by simp [entriesList, entriesSoftDelete, entriesListCond, sampleEntry],
   (softDelete_excluded_from_reads [sampleEntry] "e1" 5).2⟩

/-- C8 counterexample — the claim asserts `softDelete` returns `false` on an
already soft-deleted record; the code's `WHERE` clause matches the row
regardless of `deletedAt`, so `result.changes > 0` and it returns `true`. -/
theorem softDelete_already_deleted_cex :
    (entriesSoftDelete [sampleDeletedEntry] "e1" 5).2 = true := by
  decide

/-- C8 (amended) — `softDelete(id)` soft-deletes every row with that id
(setting `deletedAt` and `syncStatus = 'pending'`) and returns `true` exactly
when some row carries the id — whether or not it was already soft-deleted;
it returns `false` only when the record is absent, in which case the store is
unchanged. -/
theorem entriesSoftDelete_spec (store : List Entry) (id : String) (nowMs : Nat) :
    ((entriesSoftDelete store id nowMs).2 = true ↔ ∃ e ∈ store, e.id = id) ∧
    (∀ e ∈ (entriesSoftDelete store id nowMs).1, e.id = id →
      e.deletedAt = some nowMs ∧ e.syncStatus = .pending) ∧
    ((∀ e ∈ store, e.id ≠ id) → (entriesSoftDelete store id nowMs).1 = store) := by
  refine ⟨?_, softDelete_rows_deleted store id nowMs, ?_⟩
  · constructor
    · intro h
      have h' : 0 < (store.filter (fun e => e.id == id)).length := by
        simpa [entriesSoftDelete] using h
      obtain ⟨e, he⟩ := List.exists_mem_of_length_pos h'
      have hm := List.mem_filter.mp he
      exact ⟨e, hm.1, by simpa using hm.2⟩
    · rintro ⟨e, he, hid⟩
      have hmem : e ∈ store.filter (fun e => e.id == id) :=
        List.mem_filter.mpr ⟨he, by simpa using hid⟩
      simpa [entriesSoftDelete] using List.length_pos_of_mem hmem
  · intro hnone
    show (store.map _) = store
    conv_rhs => rw [← List.map_id store]
    refine List.map_congr_left ?_
    intro e he
    have hne : ¬((e.id == id) = true) := by simpa using hnone e he
    show (if (e.id == id) = true then _ else e) = _
    rw [if_neg hne]
    rfl

/-- Witness for the amended C8: deleting a present entry returns `true` and
soft-deletes the row; deleting an id no row carries leaves the store as
it was. -/
theorem entriesSoftDelete_spec_witness :
    (entriesSoftDelete [sampleEntry] "e1" 5).2 = true ∧
    (entriesSoftDelete [sampleEntry] "missing" 5).1 = [sampleEntry] :=
  ⟨(entriesSoftDelete_spec [sampleEntry] "e1" 5).1.mpr ⟨sampleEntry, by simp, rfl⟩,
   (entriesSoftDelete_spec [sampleEntry] "missing" 5).2.2 (by decide)⟩

/-- C9 counterexample — the claim asserts that an explicitly supplied
`version` is stored unchanged; supplying the explicit (but falsy) empty
string makes `update` store the incremented counter `"2"` instead. -/
theorem update_empty_version_cex :
    ((entriesUpdate [sampleEntry] "e1" { version := some "" } 5).2).map
        (·.version) = some "2" := by
  decide

/-- C9 (amended) — `update(id, patch)` on a present, non-deleted entry sets
`updatedAt` to now and `syncStatus` to `'pending'` on the matching row, and
sets its version to `parseInt(existing.version) + 1` rendered back to a
string unless the patch carries a *non-empty* `version` string, which is then
stored unchanged (an empty-string version is falsy in JavaScript and is
treated like an absent one); on an absent or soft-deleted id it returns
`null` and modifies nothing. -/
theorem entriesUpdate_spec (store : List Entry) (id : String)
    (data : UpdateEntryInput) (nowMs : Nat) :
    (entriesFindById store id = none →
      entriesUpdate store id data nowMs = (store, none)) ∧
    (∀ ex, entriesFindById store id = some ex →
      ∀ e ∈ (entriesUpdate store id data nowMs).1, e.id = id →
        e.updatedAt = nowMs ∧ e.syncStatus = .pending ∧
        e.version = (if data.version.getD "" == "" then
                       jsIncrementVersion ex.version
                     else data.version.getD ex.version)) ∧
    (∀ s : String, ∀ n : Int, jsParseInt s = some n →
      jsIncrementVersion s = toString (n + 1)) := by
  refine ⟨?_, ?_, ?_⟩
  · intro hnone
    simp only [entriesUpdate, hnone]
  · intro ex hex e he hid
    simp only [entriesUpdate, hex] at he
    simp only [List.mem_map] at he
    obtain ⟨r, _, rfl⟩ := he
    by_cases h : (r.id == id) = true
    · rw [if_pos h] at hid ⊢
      exact ⟨rfl, rfl, rfl⟩
    · rw [if_neg h] at hid
      exact absurd (by simpa using hid) (by simpa using h)
  · intro s n hparse
    simp [jsIncrementVersion, hparse]

/-- Witness for the amended C9 at concrete inputs: an absent id changes
nothing; a title patch on a present entry bumps `updatedAt`, resets the sync
marker and increments the version `"1"` to `"2"`. -/
theorem entriesUpdate_spec_witness :
    entriesUpdate [] "e1" {} 5 = ([], none) ∧
    (∃ e ∈ (entriesUpdate [sampleEntry] "e1" { title := some "n" } 5).1,
      e.id = "e1" ∧ e.updatedAt = 5 ∧ e.syncStatus = .pending ∧
      e.version = "2") := by
  constructor
  · exact (entriesUpdate_spec [] "e1" {} 5).1 rfl
  · refine ⟨applyEntryPatch { title := some "n" } "2" 5 sampleEntry, ?_, ?_⟩
    · decide
    · have h := (entriesUpdate_spec [sampleEntry] "e1" { title := some "n" } 5).2.1
        sampleEntry (by decide)
        (applyEntryPatch { title := some "n" } "2" 5 sampleEntry)
        (by decide) (by decide)
      refine ⟨by decide, h.1, h.2.1, ?_⟩
      have := h.2.2
      simpa using this

/-! ## Tag, source and review-state rows and the slices of their
repositories used by the sync orchestrator. -/

/-- A row of the local `tags` table. -/
structure Tag where
  id : String
  userId : String
  name : String
  color : Option String := none
  createdAt : Nat
  updatedAt : Nat
  syncStatus : SyncStatus
  lastSyncedAt : Option Nat := none
deriving DecidableEq, Repr

/-- A row of the local `sources` table (`type` is a Lean keyword, rendered
as `sourceType`; the `publishedAt`/`metadata` columns are never read by the
sync paths and are omitted). -/
structure Source where
  id : String
  userId : String
  sourceType : String
  title : String
  url : Option String := none
  author : Option String := none
  createdAt : Nat
  updatedAt : Nat
  deletedAt : Option Nat := none
  syncStatus : SyncStatus
  lastSyncedAt : Option Nat := none
deriving DecidableEq, Repr

/-- A row of the local `entry_review_state` table (scheduling fields as in
`ReviewStateSnapshot`). -/
structure EntryReviewState where
  entryId : String
  userId : String
  dueAt : Nat
  lastReviewedAt : Option Nat := none
  intervalDays : Int
  ease : ℚ
  reps : Int
  lapses : Int
  createdAt : Nat
  updatedAt : Nat
  syncStatus : SyncStatus
deriving DecidableEq, Repr

/-- The `TagsRepository.findById` (tags have no soft-delete filter). -/
def tagsFindById (store : List Tag) (id : String) : Option Tag :=
  store.find? (fun t => t.id == id)

/-- The `TagsRepository.create`. -/
def tagsCreate (store : List Tag) (userId name : String)
    (color : Option String) (freshId : String) (nowMs : Nat) : List Tag :=
  store ++ [{ id := freshId, userId := userId, name := name, color := color,
              createdAt := nowMs, updatedAt := nowMs,
              syncStatus := .pending }]

/-- The `TagsRepository.update` restricted to the fields the orchestrator
patches (`name`, `color`); absent or unknown id ⇒ no write. -/
def tagsUpdate (store : List Tag) (id : String) (name : Option String)
    (color : Option String) (nowMs : Nat) : List Tag :=
  match tagsFindById store id with
  | none => store
  | some _ =>
      store.map (fun t =>
        if t.id == id then
          { t with name := name.getD t.name,
                   color := match color with
                            | some c => some c
                            | none => t.color,
                   updatedAt := nowMs, syncStatus := .pending }
        else t)

/-- The `TagsRepository.markSynced`. -/
def tagsMarkSynced (store : List Tag) (id : String) (nowMs : Nat) : List Tag :=
  store.map (fun t =>
    if t.id == id then
      { t with syncStatus := .synced, lastSyncedAt := some nowMs }
    else t)

/-- The `TagsRepository.getPendingSync`. -/
def tagsGetPendingSync (store : List Tag) (userId : String) : List Tag :=
  store.filter (fun t => t.userId == userId && t.syncStatus == .pending)

/-- The `SourcesRepository.findById` (filters soft-deleted rows). -/
def sourcesFindById (store : List Source) (id : String) : Option Source :=
  store.find? (fun s => s.id == id && s.deletedAt == none)

/-- The `SourcesRepository.create` restricted to the fields the orchestrator
supplies. -/
def sourcesCreate (store : List Source) (userId sourceType title : String)
    (url author : Option String) (freshId : String) (nowMs : Nat) :
    List Source :=
  store ++ [{ id := freshId, userId := userId, sourceType := sourceType,
              title := title, url := url, author := author,
              createdAt := nowMs, updatedAt := nowMs,
              syncStatus := .pending }]

/-- The `SourcesRepository.update` restricted to the fields the orchestrator
patches (`title`, `url`, `author`). -/
def sourcesUpdate (store : List Source) (id : String) (title : Option String)
    (url author : Option String) (nowMs : Nat) : List Source :=
  match sourcesFindById store id with
  | none => store
  | some _ =>
      store.map (fun s =>
        if s.id == id then
          { s with title := title.getD s.title,
                   url := match url with
                          | some u => some u
                          | none => s.url,
                   author := match author with
                             | some a => some a
                             | none => s.author,
                   updatedAt := nowMs, syncStatus := .pending }
        else s)

/-- The `SourcesRepository.markSynced`. -/
def sourcesMarkSynced (store : List Source) (id : String) (nowMs : Nat) :
    List Source :=
  store.map (fun s =>
    if s.id == id then
      { s with syncStatus := .synced, lastSyncedAt := some nowMs }
    else s)

/-- The `SourcesRepository.getPendingSync`. -/
def sourcesGetPendingSync (store : List Source) (userId : String) :
    List Source :=
  store.filter (fun s => s.userId == userId && s.syncStatus == .pending)

/-- The `ReviewRepository.getPendingSyncStates`. -/
def reviewGetPendingSyncStates (store : List EntryReviewState)
    (userId : String) : List EntryReviewState :=
  store.filter (fun s => s.userId == userId && s.syncStatus == .pending)

/-- The `ReviewRepository.markStateSynced`. -/
def reviewMarkStateSynced (store : List EntryReviewState) (entryId : String)
    (nowMs : Nat) : List EntryReviewState :=
  store.map (fun s =>
    if s.entryId == entryId then
      { s with syncStatus := .synced, updatedAt := nowMs }
    else s)

/-! ## Sync orchestrator (`SyncService` of
`apps/native/lib/sync/sync-service.ts`). -/

/-- The server-side entry shape consumed by the download phase. -/
structure ServerEntry where
  id : String
  title : String
  contentJson : Option String := none
  contentText : Option String := none
  isInbox : Bool
  isStarred : Bool
  isPinned : Bool
  createdAt : Nat
  updatedAt : Nat
  version : String
deriving DecidableEq, Repr

/-- The server-side tag shape consumed by the download phase. -/
structure ServerTag where
  id : String
  name : String
  color : Option String := none
deriving DecidableEq, Repr

/-- The server-side source shape consumed by the download phase. -/
structure ServerSource where
  id : String
  title : String
  sourceType : String
  url : Option String := none
  author : Option String := none
deriving DecidableEq, Repr

/-- A snapshot stored inside a `SyncConflict`.  The source stores
`JSON.stringify` strings; the model carries the serialized value itself:
`raw` for payload strings taken verbatim from the pending log (including the
`'{}'` placeholder), `localEntry`/`remoteEntry` for the stringified records
of the download path. -/
inductive ConflictSnapshot where
  | raw (s : String)
  | localEntry (e : Entry)
  | remoteEntry (e : ServerEntry)
deriving DecidableEq, Repr

/-- The `SyncConflict`. -/
structure SyncConflict where
  id : String
  entityType : SyncEntityType
  entityId : String
  localData : ConflictSnapshot
  remoteData : ConflictSnapshot
  localUpdatedAt : Nat
  remoteUpdatedAt : Nat
  createdAt : Nat
  resolvedAt : Option Nat := none
  resolution : Option ConflictStrategy := none
deriving DecidableEq, Repr

/-- The `SyncEntityResult` (an element of `result.errors`). -/
structure SyncEntityResult where
  entityType : SyncEntityType
  entityId : String
  success : Bool
  error : Option String := none
  conflictFlag : Bool := false
deriving DecidableEq, Repr

/-- The `SyncResult`. -/
structure SyncResult where
  success : Bool
  uploadedCount : Nat
  downloadedCount : Nat
  conflictCount : Nat
  errorCount : Nat
  errors : List SyncEntityResult
  conflicts : List SyncConflict
  duration : Nat
deriving DecidableEq, Repr

/-- The `lastSyncResult` outcome: `'success' | 'partial' | 'failed'`. -/
inductive LastSyncOutcome where
  | success
  | partialOutcome
  | failed
deriving DecidableEq, Repr

/-- The `SyncMetadata`. -/
structure SyncMetadata where
  lastSyncAt : Option Nat := none
  lastSyncResult : Option LastSyncOutcome := none
  pendingOperationsCount : Nat := 0
  conflictsCount : Nat := 0
deriving DecidableEq, Repr

/-- The mutable state the orchestrator touches: its lifecycle flag, the
Pending Operation Log (SecureStore), the conflict store (SecureStore), the
sync metadata (SecureStore) and the local SQLite stores. -/
structure SyncWorld where
  state : SyncState
  pendingOps : List PendingOperation
  conflictStore : List SyncConflict
  metadata : SyncMetadata
  entryStore : List Entry
  tagStore : List Tag
  sourceStore : List Source
  reviewStateStore : List EntryReviewState
deriving Repr

/-- Outcome of a remote call made while draining one pending operation:
`ok`, an error whose message is classified as a version conflict
(`includes('CONFLICT') || includes('conflict')`), or any other error. -/
inductive RemoteCallResult where
  | ok
  | conflictError (msg : String)
  | otherError (msg : String)
deriving DecidableEq, Repr

/-- The environment of one sync pass: the remote behaviour (an oracle per
call site), the server listings of the download phase, the id generators and
the clock. -/
structure SyncEnv where
  uploadOutcome : PendingOperation → RemoteCallResult
  forceUploadOk : PendingOperation → Bool
  bulkOutcome : SyncEntityType → String → Option String
  serverEntries : List ServerEntry
  serverTags : List ServerTag
  serverSources : List ServerSource
  freshLocalId : Nat → String
  freshConflictId : Nat → String
  nowMs : Nat

/-- Accumulator of `uploadPendingOperations`. -/
structure UploadAcc where
  log : List PendingOperation
  uploadedCount : Nat
  errors : List SyncEntityResult
  conflicts : List SyncConflict
  conflictCounter : Nat
deriving Repr

/-- The `SyncService.processOperation` (with `syncEntityByType`,
`handleOperationError`, `handleConflictError` and `forceUpload` folded in):
success removes the operation from the log; a plain error marks it failed
and surfaces in `errors`; a conflict error under `local` force-uploads
(implemented only for entries) and under `manual` records a conflict with
the raw payload, an empty remote placeholder and the operation's creation
time, leaving the operation queued; under `remote` nothing happens. -/
def processOperation (env : SyncEnv) (strategy : ConflictStrategy)
    (acc : UploadAcc) (op : PendingOperation) : UploadAcc :=
  match env.uploadOutcome op with
  | .ok =>
      { acc with log := pendingRemove acc.log op.id,
                 uploadedCount := acc.uploadedCount + 1 }
  | .otherError msg =>
      { acc with log := pendingMarkFailed acc.log op.id msg,
                 errors := acc.errors ++
                   [{ entityType := op.entityType, entityId := op.entityId,
                      success := false, error := some msg }] }
  | .conflictError msg =>
      match strategy with
      | .localWins =>
          if op.entityType == .entry && env.forceUploadOk op then
            { acc with log := pendingRemove acc.log op.id,
                       uploadedCount := acc.uploadedCount + 1 }
          else
            { acc with log := pendingMarkFailed acc.log op.id msg,
                       errors := acc.errors ++
                         [{ entityType := op.entityType,
                            entityId := op.entityId, success := false,
                            error := some msg, conflictFlag := true }] }
      | .manual =>
          { acc with
              conflicts := acc.conflicts ++
                [{ id := env.freshConflictId acc.conflictCounter,
                   entityType := op.entityType, entityId := op.entityId,
                   localData := .raw op.payload, remoteData := .raw "{}",
                   localUpdatedAt := op.createdAt,
                   remoteUpdatedAt := env.nowMs, createdAt := env.nowMs }],
              conflictCounter := acc.conflictCounter + 1 }
      | .remoteWins => acc

/-- The `SyncService.uploadPendingOperations`: drain the snapshot of the log
taken at phase start, in order. -/
def uploadPendingOperations (env : SyncEnv) (strategy : ConflictStrategy)
    (log : List PendingOperation) : UploadAcc :=
  log.foldl (processOperation env strategy)
    { log := log, uploadedCount := 0, errors := [], conflicts := [],
      conflictCounter := 0 }

/-- The `SyncService.createLocalEntry`: `entriesRepository.create` (which assigns
a *freshly generated local id* — `CreateEntryInput` has no id field) followed
by `markSynced(serverEntry.id)`. -/
def createLocalEntry (store : List Entry) (userId : String) (se : ServerEntry)
    (freshLocalId : String) (nowMs : Nat) : List Entry :=
  let created := entriesCreate store
    { userId := userId, title := se.title, contentJson := se.contentJson,
      contentText := se.contentText, isInbox := some se.isInbox,
      isStarred := some se.isStarred, isPinned := some se.isPinned }
    freshLocalId nowMs
  entriesMarkSynced created.1 se.id none nowMs

/-- The `SyncService.updateLocalEntry`: repository update with the server fields
followed by `markSynced(serverEntry.id)`. -/
def updateLocalEntry (store : List Entry) (se : ServerEntry) (nowMs : Nat) :
    List Entry :=
  let updated := entriesUpdate store se.id
    { title := some se.title, contentJson := se.contentJson,
      contentText := se.contentText, isInbox := some se.isInbox,
      isStarred := some se.isStarred, isPinned := some se.isPinned }
    nowMs
  entriesMarkSynced updated.1 se.id none nowMs

/-- The `SyncService.handleEntryConflict`: remote not strictly newer ⇒ silent
no-op; `remote` strategy overwrites local and counts as downloaded; `manual`
pushes a conflict carrying both stringified snapshots and both `updatedAt`
instants; `local` does nothing here.  Returns the new entry store, the new
conflict list, the `downloaded` flag and the consumed-conflict-id count. -/
def handleEntryConflict (localEntry : Entry) (se : ServerEntry)
    (strategy : ConflictStrategy) (store : List Entry)
    (conflicts : List SyncConflict) (freshConflictId : String) (nowMs : Nat) :
    List Entry × List SyncConflict × Bool × Nat :=
  if se.updatedAt ≤ localEntry.updatedAt then
    (store, conflicts, false, 0)
  else if strategy == .remoteWins then
    (updateLocalEntry store se nowMs, conflicts, true, 0)
  else if strategy == .manual then
    (store,
     conflicts ++
       [{ id := freshConflictId, entityType := .entry, entityId := se.id,
          localData := .localEntry localEntry, remoteData := .remoteEntry se,
          localUpdatedAt := localEntry.updatedAt,
          remoteUpdatedAt := se.updatedAt, createdAt := nowMs }],
     false, 1)
  else
    (store, conflicts, false, 0)

/-- Accumulator of the download phase. -/
structure DownloadAcc where
  entryStore : List Entry
  tagStore : List Tag
  sourceStore : List Source
  downloadedCount : Nat
  errors : List SyncEntityResult
  conflicts : List SyncConflict
  localIdCounter : Nat
  conflictCounter : Nat
deriving Repr

/-- The `SyncService.processServerEntry`: no local record ⇒ `createLocalEntry`;
local `synced` ⇒ overwrite from server; local `pending` ⇒
`handleEntryConflict`; local `conflict` ⇒ nothing. -/
def processServerEntry (env : SyncEnv) (userId : String)
    (strategy : ConflictStrategy) (acc : DownloadAcc) (se : ServerEntry) :
    DownloadAcc :=
  match entriesFindById acc.entryStore se.id with
  | none =>
      { acc with
          entryStore := createLocalEntry acc.entryStore userId se
            (env.freshLocalId acc.localIdCounter) env.nowMs,
          localIdCounter := acc.localIdCounter + 1,
          downloadedCount := acc.downloadedCount + 1 }
  | some localEntry =>
      if localEntry.syncStatus == .synced then
        { acc with entryStore := updateLocalEntry acc.entryStore se env.nowMs,
                   downloadedCount := acc.downloadedCount + 1 }
      else if localEntry.syncStatus == .pending then
        let r := handleEntryConflict localEntry se strategy acc.entryStore
          acc.conflicts (env.freshConflictId acc.conflictCounter) env.nowMs
        { acc with entryStore := r.1, conflicts := r.2.1,
                   downloadedCount :=
                     acc.downloadedCount + (if r.2.2.1 then 1 else 0),
                   conflictCounter := acc.conflictCounter + r.2.2.2 }
      else
        acc

/-- The `SyncService.downloadEntries` over the server listing. -/
def downloadEntries (env : SyncEnv) (userId : String)
    (strategy : ConflictStrategy) (acc : DownloadAcc) : DownloadAcc :=
  env.serverEntries.foldl (processServerEntry env userId strategy) acc

/-- One step of `SyncService.downloadTags`: absent ⇒ `createLocalTag`
(repository create with a fresh local id, then `markSynced(serverTag.id)`);
local `synced` ⇒ `updateLocalTag`; otherwise nothing. -/
def processServerTag (env : SyncEnv) (userId : String) (acc : DownloadAcc)
    (st : ServerTag) : DownloadAcc :=
  match tagsFindById acc.tagStore st.id with
  | none =>
      { acc with
          tagStore := tagsMarkSynced
            (tagsCreate acc.tagStore userId st.name st.color
              (env.freshLocalId acc.localIdCounter) env.nowMs)
            st.id env.nowMs,
          localIdCounter := acc.localIdCounter + 1,
          downloadedCount := acc.downloadedCount + 1 }
  | some localTag =>
      if localTag.syncStatus == .synced then
        { acc with
            tagStore := tagsMarkSynced
              (tagsUpdate acc.tagStore st.id (some st.name) st.color env.nowMs)
              st.id env.nowMs,
            downloadedCount := acc.downloadedCount + 1 }
      else
        acc

/-- One step of `SyncService.downloadSources`. -/
def processServerSource (env : SyncEnv) (userId : String) (acc : DownloadAcc)
    (ss : ServerSource) : DownloadAcc :=
  match sourcesFindById acc.sourceStore ss.id with
  | none =>
      { acc with
          sourceStore := sourcesMarkSynced
            (sourcesCreate acc.sourceStore userId ss.sourceType ss.title
              ss.url ss.author (env.freshLocalId acc.localIdCounter) env.nowMs)
            ss.id env.nowMs,
          localIdCounter := acc.localIdCounter + 1,
          downloadedCount := acc.downloadedCount + 1 }
  | some localSource =>
      if localSource.syncStatus == .synced then
        { acc with
            sourceStore := sourcesMarkSynced
              (sourcesUpdate acc.sourceStore ss.id (some ss.title) ss.url
                ss.author env.nowMs)
              ss.id env.nowMs,
            downloadedCount := acc.downloadedCount + 1 }
      else
        acc

/-- The `SyncService.downloadFromServer`: entries, then tags, then sources. -/
def downloadFromServer (env : SyncEnv) (userId : String)
    (strategy : ConflictStrategy) (entryStore : List Entry)
    (tagStore : List Tag) (sourceStore : List Source)
    (conflictCounter : Nat) : DownloadAcc :=
  let acc0 : DownloadAcc :=
    { entryStore := entryStore, tagStore := tagStore,
      sourceStore := sourceStore, downloadedCount := 0, errors := [],
      conflicts := [], localIdCounter := 0,
      conflictCounter := conflictCounter }
  let acc1 := downloadEntries env userId strategy acc0
  let acc2 := env.serverTags.foldl (processServerTag env userId) acc1
  env.serverSources.foldl (processServerSource env userId) acc2

/-- The structured `'Sync already in progress'` rejection returned by
`SyncService.sync` when the state is already `'syncing'`. -/
def syncInProgressResult : SyncResult :=
  { success := false, uploadedCount := 0, downloadedCount := 0,
    conflictCount := 0, errorCount := 1,
    errors := [{ entityType := .entry, entityId := "", success := false,
                 error := some "Sync already in progress" }],
    conflicts := [], duration := 0 }

/-- The `SyncService.determineSyncResult`. -/
def determineSyncResult (result : SyncResult) : LastSyncOutcome :=
  if result.success then .success
  else if 0 < result.errorCount then .failed
  else .partialOutcome

/-- The `SyncService.sync`: the single-flight guard, then the upload phase over
the Pending Operation Log, the download phase, the aggregated counts, the
metadata write, the conflict-store append (only when new conflicts exist)
and the final state (`conflict` when the pass produced conflicts, else
`idle`).  The uncaught-exception path is not reachable in the model (the
modelled effects cannot throw). -/
def sync (w : SyncWorld) (userId : String) (strategy : ConflictStrategy)
    (env : SyncEnv) : SyncWorld × SyncResult :=
  if w.state == .syncing then
    (w, syncInProgressResult)
  else
    let upload := uploadPendingOperations env strategy w.pendingOps
    let download := downloadFromServer env userId strategy w.entryStore
      w.tagStore w.sourceStore upload.conflictCounter
    let errors := upload.errors ++ download.errors
    let conflicts := upload.conflicts ++ download.conflicts
    let conflictCount := conflicts.length
    let errorCount := errors.length
    let success := errorCount == 0
    let result : SyncResult :=
      { success := success, uploadedCount := upload.uploadedCount,
        downloadedCount := download.downloadedCount,
        conflictCount := conflictCount, errorCount := errorCount,
        errors := errors, conflicts := conflicts, duration := 0 }
    let metadata' : SyncMetadata :=
      { lastSyncAt := some env.nowMs,
        lastSyncResult := some (determineSyncResult result),
        pendingOperationsCount := upload.log.length,
        conflictsCount := conflictCount }
    let conflictStore' :=
      if conflicts.isEmpty then w.conflictStore
      else w.conflictStore ++ conflicts
    ({ state := if 0 < conflictCount then .conflict else .idle,
       pendingOps := upload.log, conflictStore := conflictStore',
       metadata := metadata', entryStore := download.entryStore,
       tagStore := download.tagStore, sourceStore := download.sourceStore,
       reviewStateStore := w.reviewStateStore },
     result)

/-- Accumulator of one per-family loop of `uploadAllLocalData`. -/
structure BulkAcc (ρ : Type) where
  store : ρ
  uploadedCount : Nat
  errors : List SyncEntityResult
deriving Repr

/-- One iteration shared by the four per-family loops of
`uploadAllLocalData` (`try remote create; markSynced; uploadedCount++`
/ `catch: collect the error`), abstracted over the family's store type, its
mark-synced write and its id projection. -/
def bulkUploadStep {ρ α : Type} (markOk : ρ → α → ρ) (et : SyncEntityType)
    (getId : α → String) (env : SyncEnv) (acc : BulkAcc ρ) (a : α) :
    BulkAcc ρ :=
  match env.bulkOutcome et (getId a) with
  | none =>
      { acc with store := markOk acc.store a,
                 uploadedCount := acc.uploadedCount + 1 }
  | some msg =>
      { acc with errors := acc.errors ++
          [{ entityType := et, entityId := getId a, success := false,
             error := some msg }] }

/-- The `SyncService.uploadPendingEntries`: push every `pending` entry via
`client.entries.create` and mark the successes synced. -/
def uploadPendingEntries (env : SyncEnv) (userId : String)
    (store : List Entry) : BulkAcc (List Entry) :=
  (entriesGetPendingSync store userId).foldl
    (bulkUploadStep (fun st e => entriesMarkSynced st e.id none env.nowMs)
      .entry (fun e => e.id) env)
    { store := store, uploadedCount := 0, errors := [] }

/-- The `SyncService.uploadPendingTags`. -/
def uploadPendingTags (env : SyncEnv) (userId : String) (store : List Tag) :
    BulkAcc (List Tag) :=
  (tagsGetPendingSync store userId).foldl
    (bulkUploadStep (fun st t => tagsMarkSynced st t.id env.nowMs)
      .tag (fun t => t.id) env)
    { store := store, uploadedCount := 0, errors := [] }

/-- The `SyncService.uploadPendingSources`. -/
def uploadPendingSources (env : SyncEnv) (userId : String)
    (store : List Source) : BulkAcc (List Source) :=
  (sourcesGetPendingSync store userId).foldl
    (bulkUploadStep (fun st s => sourcesMarkSynced st s.id env.nowMs)
      .source (fun s => s.id) env)
    { store := store, uploadedCount := 0, errors := [] }

/-- The `SyncService.uploadPendingReviewStates`. -/
def uploadPendingReviewStates (env : SyncEnv) (userId : String)
    (store : List EntryReviewState) : BulkAcc (List EntryReviewState) :=
  (reviewGetPendingSyncStates store userId).foldl
    (bulkUploadStep (fun st s => reviewMarkStateSynced st s.entryId env.nowMs)
      .reviewState (fun s => s.entryId) env)
    { store := store, uploadedCount := 0, errors := [] }

/-- The `SyncService.uploadAllLocalData`: *no* single-flight guard — it sets the
state to `'syncing'` unconditionally, pushes every pending entry, tag,
source and review state, writes the metadata and finishes in `'idle'` (the
exception path is unreachable in the model). -/
def uploadAllLocalData (w : SyncWorld) (userId : String) (env : SyncEnv) :
    SyncWorld × SyncResult :=
  let entriesAcc := uploadPendingEntries env userId w.entryStore
  let tagsAcc := uploadPendingTags env userId w.tagStore
  let sourcesAcc := uploadPendingSources env userId w.sourceStore
  let reviewAcc := uploadPendingReviewStates env userId w.reviewStateStore
  let errors := entriesAcc.errors ++ tagsAcc.errors ++ sourcesAcc.errors ++
    reviewAcc.errors
  let uploadedCount := entriesAcc.uploadedCount + tagsAcc.uploadedCount +
    sourcesAcc.uploadedCount + reviewAcc.uploadedCount
  let errorCount := errors.length
  let success := errorCount == 0
  ({ state := .idle,
     pendingOps := w.pendingOps,
     conflictStore := w.conflictStore,
     metadata :=
       { lastSyncAt := some env.nowMs,
         lastSyncResult := some (if success then .success
                                 else .partialOutcome),
         pendingOperationsCount := 0, conflictsCount := 0 },
     entryStore := entriesAcc.store, tagStore := tagsAcc.store,
     sourceStore := sourcesAcc.store, reviewStateStore := reviewAcc.store },
   { success := success, uploadedCount := uploadedCount,
     downloadedCount := 0, conflictCount := 0, errorCount := errorCount,
     errors := errors, conflicts := [], duration := 0 })

/-- A concrete environment: every remote call succeeds, the server listings
are empty, ids are generated from a counter and the clock reads 100. -/
def sampleEnv : SyncEnv :=
  { uploadOutcome := fun _ => .ok, forceUploadOk := fun _ => true,
    bulkOutcome := fun _ _ => none, serverEntries := [], serverTags := [],
    serverSources := [],
    freshLocalId := fun n => "local_" ++ toString n,
    freshConflictId := fun n => "conflict_" ++ toString n, nowMs := 100 }

/-- A concrete world whose orchestrator is mid-sync. -/
def sampleSyncingWorld : SyncWorld :=
  { state := .syncing, pendingOps := [sampleCreateOp], conflictStore := [],
    metadata := {}, entryStore := [sampleEntry], tagStore := [],
    sourceStore := [], reviewStateStore := [] }

/-- C3 — single-flight: invoked while the state is `'syncing'`, `sync`
returns the structured `'Sync already in progress'` rejection
(`success = false`, `errorCount = 1`, a non-empty `errors[]` carrying the
message) and leaves the whole world — pending log, conflict store, metadata
and local stores — untouched; being a constant rejection, the result is also
independent of the remote environment, so no store is consulted. -/
theorem sync_single_flight (w : SyncWorld) (userId : String)
    (strategy : ConflictStrategy) (env : SyncEnv)
    (h : w.state = .syncing) :
    sync w userId strategy env = (w, syncInProgressResult) ∧
    syncInProgressResult.success = false ∧
    syncInProgressResult.errorCount = 1 ∧
    syncInProgressResult.errors ≠ [] ∧
    (∃ err ∈ syncInProgressResult.errors,
      err.error = some "Sync already in progress") := by
  refine ⟨?_, rfl, rfl, by decide, ?_⟩
  · simp [sync, h]
  · exact ⟨_, List.mem_singleton_self _, rfl⟩

/-- Witness for C3 at a concrete mid-sync world and environment. -/
theorem sync_single_flight_witness :
    sync sampleSyncingWorld "u1" .localWins sampleEnv =
      (sampleSyncingWorld, syncInProgressResult) :=
  (sync_single_flight sampleSyncingWorld "u1" .localWins sampleEnv rfl).1

/-- A concrete server entry with no local counterpart. -/
def sampleServerEntry : ServerEntry :=
  { id := "srv1", title := "T", isInbox := true, isStarred := false,
    isPinned := false, createdAt := 10, updatedAt := 20, version := "3" }

/-- The empty download accumulator over an empty local store. -/
def emptyDownloadAcc : DownloadAcc :=
  { entryStore := [], tagStore := [], sourceStore := [],
    downloadedCount := 0, errors := [], conflicts := [], localIdCounter := 0,
    conflictCounter := 0 }

/-- C5 — failing input: a server entry (`id = 'srv1'`) with no matching local
record.  `createLocalEntry` calls the repository `create`, whose input shape
has no id field, so the new row receives a freshly generated local id and
the follow-up `markSynced('srv1')` matches no row: afterwards the local
store has no record for the server id at all, and the created row is still
`'pending'` — contradicting the claim that a local copy for the server id
exists with status `'synced'`. -/
theorem processServerEntry_create_bug :
    (processServerEntry sampleEnv "u1" .manual emptyDownloadAcc
        sampleServerEntry).entryStore.map (fun e => (e.id, e.syncStatus)) =
      [("local_0", SyncStatus.pending)] ∧
    entriesFindById
      (processServerEntry sampleEnv "u1" .manual emptyDownloadAcc
        sampleServerEntry).entryStore "srv1" = none := by
  decide

/-- C6 — manual conflict path: when the download phase meets a local
`'pending'` entry whose server counterpart is strictly newer under the
`manual` strategy, exactly one new `SyncConflict` is appended — carrying the
local and remote snapshots and both `updatedAt` instants — the local store
is left byte-for-byte unchanged (so the record keeps its fields and stays
`'pending'`), nothing is counted as downloaded, and at the end of the pass
`sync` appends the pass's conflicts to the durable conflict store. -/
theorem processServerEntry_manual_conflict (env : SyncEnv) (userId : String)
    (acc : DownloadAcc) (se : ServerEntry) (localEntry : Entry)
    (hfind : entriesFindById acc.entryStore se.id = some localEntry)
    (hpend : localEntry.syncStatus = .pending)
    (hnewer : localEntry.updatedAt < se.updatedAt) :
    ((processServerEntry env userId .manual acc se).entryStore =
        acc.entryStore ∧
      (processServerEntry env userId .manual acc se).conflicts =
        acc.conflicts ++
          [{ id := env.freshConflictId acc.conflictCounter,
             entityType := .entry, entityId := se.id,
             localData := .localEntry localEntry,
             remoteData := .remoteEntry se,
             localUpdatedAt := localEntry.updatedAt,
             remoteUpdatedAt := se.updatedAt, createdAt := env.nowMs }] ∧
      (processServerEntry env userId .manual acc se).downloadedCount =
        acc.downloadedCount) ∧
    (∀ (w : SyncWorld) (strategy : ConflictStrategy) (uid : String),
      w.state ≠ .syncing →
      (sync w uid strategy env).1.conflictStore =
        w.conflictStore ++ (sync w uid strategy env).2.conflicts) := by
  constructor
  · have hnle : ¬(se.updatedAt ≤ localEntry.updatedAt) := by omega
    simp [processServerEntry, hfind, hpend, handleEntryConflict, if_neg hnle]
  · intro w strategy uid hw
    have hbeq : (w.state == SyncState.syncing) = false := by
      simpa using hw
    simp only [sync, hbeq, Bool.false_eq_true, if_false]
    by_cases hempty :
        ((uploadPendingOperations env strategy w.pendingOps).conflicts ++
          (downloadFromServer env uid strategy w.entryStore w.tagStore
            w.sourceStore
            (uploadPendingOperations env strategy w.pendingOps).conflictCounter).conflicts) = []
    · simp [hempty]
    · simp [hempty, List.isEmpty_iff]

/-- A concrete local entry with unsynced edits. -/
def samplePendingEntry : Entry :=
  { id := "e1", userId := "u1", title := "t", createdAt := 1, updatedAt := 10,
    version := "1", syncStatus := .pending }

/-- The server counterpart of `samplePendingEntry`, strictly newer. -/
def sampleServerForE1 : ServerEntry :=
  { id := "e1", title := "T2", isInbox := true, isStarred := false,
    isPinned := false, createdAt := 1, updatedAt := 20, version := "2" }

/-- A download accumulator holding only the pending entry. -/
def pendingDownloadAcc : DownloadAcc :=
  { emptyDownloadAcc with entryStore := [samplePendingEntry] }

/-- Witness for C6 at the concrete pending/newer pair. -/
theorem processServerEntry_manual_conflict_witness :
    (processServerEntry sampleEnv "u1" .manual pendingDownloadAcc
        sampleServerForE1).entryStore = [samplePendingEntry] ∧
    (processServerEntry sampleEnv "u1" .manual pendingDownloadAcc
        sampleServerForE1).conflicts =
      [{ id := "conflict_0", entityType := .entry, entityId := "e1",
         localData := .localEntry samplePendingEntry,
         remoteData := .remoteEntry sampleServerForE1,
         localUpdatedAt := 10, remoteUpdatedAt := 20, createdAt := 100 }] := by
  have h := (processServerEntry_manual_conflict sampleEnv "u1"
    pendingDownloadAcc sampleServerForE1 samplePendingEntry (by decide) rfl
    (by decide)).1
  refine ⟨h.1, ?_⟩
  rw [h.2.1]
  decide

/-- A per-family loop of `uploadAllLocalData` in which every remote create
succeeds uploads one record per iteration and accumulates no error. -/
theorem bulkFold_all_ok {ρ α : Type} (step : BulkAcc ρ → α → BulkAcc ρ)
    (hstep : ∀ acc a, (step acc a).uploadedCount = acc.uploadedCount + 1 ∧
      (step acc a).errors = acc.errors) :
    ∀ (l : List α) (acc : BulkAcc ρ),
      (l.foldl step acc).uploadedCount = acc.uploadedCount + l.length ∧
      (l.foldl step acc).errors = acc.errors := by
  intro l
  induction l with
  | nil => intro acc; simp
  | cons a t ih =>
    intro acc
    simp only [List.foldl_cons, List.length_cons]
    have h1 := hstep acc a
    have h2 := ih (step acc a)
    refine ⟨?_, h2.2.trans h1.2⟩
    rw [h2.1, h1.1]
    omega

/-- When the remote accepts the record, one bulk-upload iteration counts one
upload and adds no error. -/
theorem bulkUploadStep_all_ok {ρ α : Type} (markOk : ρ → α → ρ)
    (et : SyncEntityType) (getId : α → String) (env : SyncEnv)
    (hok : ∀ id, env.bulkOutcome et id = none)
    (acc : BulkAcc ρ) (a : α) :
    (bulkUploadStep markOk et getId env acc a).uploadedCount =
      acc.uploadedCount + 1 ∧
    (bulkUploadStep markOk et getId env acc a).errors = acc.errors := by
  simp [bulkUploadStep, hok (getId a)]

/-- C10 — `uploadAllLocalData` is not guarded by the single-flight check:
called while the state is `'syncing'`, its behaviour is identical to being
called in any other state (there is no guard reading the state), it never
returns the `'Sync already in progress'` rejection, and — when the remote
accepts every record — it uploads every pending entry, tag, source and
review state, reports no error, and finishes with the state set to
`'idle'`. -/
theorem uploadAllLocalData_not_single_flight (w : SyncWorld) (userId : String)
    (env : SyncEnv) (_hstate : w.state = .syncing)
    (hok : ∀ et id, env.bulkOutcome et id = none) :
    (∀ s : SyncState,
      uploadAllLocalData { w with state := s } userId env =
        uploadAllLocalData w userId env) ∧
    (uploadAllLocalData w userId env).2 ≠ syncInProgressResult ∧
    (uploadAllLocalData w userId env).2.errors = [] ∧
    (uploadAllLocalData w userId env).2.success = true ∧
    (uploadAllLocalData w userId env).2.uploadedCount =
      (entriesGetPendingSync w.entryStore userId).length +
      (tagsGetPendingSync w.tagStore userId).length +
      (sourcesGetPendingSync w.sourceStore userId).length +
      (reviewGetPendingSyncStates w.reviewStateStore userId).length ∧
    (uploadAllLocalData w userId env).1.state = .idle := by
  have hentries := bulkFold_all_ok _
    (bulkUploadStep_all_ok
      (fun st (e : Entry) => entriesMarkSynced st e.id none env.nowMs)
      .entry (fun e => e.id) env (fun id => hok .entry id))
    (entriesGetPendingSync w.entryStore userId)
    { store := w.entryStore, uploadedCount := 0, errors := [] }
  have htags := bulkFold_all_ok _
    (bulkUploadStep_all_ok
      (fun st (t : Tag) => tagsMarkSynced st t.id env.nowMs)
      .tag (fun t => t.id) env (fun id => hok .tag id))
    (tagsGetPendingSync w.tagStore userId)
    { store := w.tagStore, uploadedCount := 0, errors := [] }
  have hsources := bulkFold_all_ok _
    (bulkUploadStep_all_ok
      (fun st (s : Source) => sourcesMarkSynced st s.id env.nowMs)
      .source (fun s => s.id) env (fun id => hok .source id))
    (sourcesGetPendingSync w.sourceStore userId)
    { store := w.sourceStore, uploadedCount := 0, errors := [] }
  have hreview := bulkFold_all_ok _
    (bulkUploadStep_all_ok
      (fun st (s : EntryReviewState) => reviewMarkStateSynced st s.entryId env.nowMs)
      .reviewState (fun s => s.entryId) env (fun id => hok .reviewState id))
    (reviewGetPendingSyncStates w.reviewStateStore userId)
    { store := w.reviewStateStore, uploadedCount := 0, errors := [] }
  have herrors : (uploadAllLocalData w userId env).2.errors = [] := by
    simp only [uploadAllLocalData, uploadPendingEntries, uploadPendingTags,
      uploadPendingSources, uploadPendingReviewStates]
    rw [hentries.2, htags.2, hsources.2, hreview.2]
    rfl
  have hcount : (uploadAllLocalData w userId env).2.uploadedCount =
      (entriesGetPendingSync w.entryStore userId).length +
      (tagsGetPendingSync w.tagStore userId).length +
      (sourcesGetPendingSync w.sourceStore userId).length +
      (reviewGetPendingSyncStates w.reviewStateStore userId).length := by
    simp only [uploadAllLocalData, uploadPendingEntries, uploadPendingTags,
      uploadPendingSources, uploadPendingReviewStates]
    rw [hentries.1, htags.1, hsources.1, hreview.1]
    dsimp only
    omega
  have hsuccess : (uploadAllLocalData w userId env).2.success = true := by
    simp only [uploadAllLocalData, uploadPendingEntries, uploadPendingTags,
      uploadPendingSources, uploadPendingReviewStates]
    rw [hentries.2, htags.2, hsources.2, hreview.2]
    rfl
  refine ⟨fun s => rfl, ?_, herrors, hsuccess, hcount, ?_⟩
  · intro heq
    have h1 : (uploadAllLocalData w userId env).2.success = false := by
      rw [heq]; rfl
    rw [hsuccess] at h1
    exact absurd h1 (by decide)
  · rfl

/-- A concrete mid-sync world with one unsynced local entry. -/
def samplePendingWorld : SyncWorld :=
  { state := .syncing, pendingOps := [], conflictStore := [], metadata := {},
    entryStore := [samplePendingEntry], tagStore := [], sourceStore := [],
    reviewStateStore := [] }

/-- Witness for C10: from a `'syncing'` state the bulk upload still runs,
uploads the one pending entry and ends `'idle'`. -/
theorem uploadAllLocalData_not_single_flight_witness :
    (uploadAllLocalData samplePendingWorld "u1" sampleEnv).2 ≠
      syncInProgressResult ∧
    (uploadAllLocalData samplePendingWorld "u1" sampleEnv).2.uploadedCount = 1 ∧
    (uploadAllLocalData samplePendingWorld "u1" sampleEnv).1.state = .idle := by
  have h := uploadAllLocalData_not_single_flight samplePendingWorld "u1"
    sampleEnv rfl (fun _ _ => rfl)
  refine ⟨h.2.1, ?_, h.2.2.2.2.2⟩
  rw [h.2.2.2.2.1]
  decide

end Folio
